import Mathlib

/-!
Verification of the todotxt web application's synchronization core.

This file gives a shallow embedding, in Lean 4, of the parts of the
application that the specification's claims are about:

* the sync status indicator (`assets/js/dropbox/ui.js`),
* the per-file pending-upload ledger (`assets/js/dropbox/offline.js`),
* the remote file gateway's metadata classification (`assets/js/dropbox/api.js`),
* the sync coordinator `coordinateSync` and the debounce trigger
  (`todo-sync-coordinator.js`),
* the legacy sync pass `syncWithDropbox` and `uploadTodosToDropbox`
  (`assets/js/dropbox/api.js`),
* the local task storage `getTodosFromStorage` (`assets/js/todo-storage.js`),
* `saveTodosFromText` and the display ordering of `loadTodos`
  (`assets/js/todo-load.js`).

JavaScript's `localStorage` is modelled as an association list of string
key/value pairs with first-match lookup (`setItem` shadows, `removeItem`
filters); timestamps are integers (milliseconds); the outcomes of
network calls and of the conflict dialog are supplied by an environment
record, reflecting that the sync functions `await` them.  The id produced
by `generateUniqueId` (built in the source from `Date.now` and
`Math.random`) is modelled by a counter supplying fresh values.
-/

/-- The `SyncStatus` enumeration of `assets/js/dropbox/ui.js`. -/
inductive SyncStatus where
  | idle
  | syncing
  | pending
  | offline
  | error
  | notConnected
deriving DecidableEq, Repr

/-- A stored task object `{id, text}` as kept in local storage.  The id
string generated by `generateUniqueId` is modelled by a natural number
from a fresh-id counter. -/
structure Todo where
  id : Nat
  text : String
deriving DecidableEq, Repr

/-- Association-list model of `localStorage.getItem`: first matching key wins. -/
def lsGet : List (String × String) → String → Option String
  | [], _ => none
  | kv :: rest, k => if kv.1 = k then some kv.2 else lsGet rest k

/-- Association-list model of `localStorage.setItem`: the new pair shadows
any earlier entry for the same key. -/
def lsSet (store : List (String × String)) (k v : String) : List (String × String) :=
  (k, v) :: store

/-- Association-list model of `localStorage.removeItem`. -/
def lsRemove (store : List (String × String)) (k : String) : List (String × String) :=
  store.filter (fun kv => kv.1 ≠ k)

/-- The mutable application state visible to the sync components.
`activeFile` is `getActiveFile()` (`none` models a missing/empty active
path); `dbxInit` is whether `getDbxInstance()` is non-null; `online` is
`navigator.onLine`; `localLastModified` is the active file's local
last-modified timestamp; `todos` is the active file's stored task list;
`nextId` is the fresh-id supply; `store` is the `localStorage` keyspace
used by the pending-upload ledger; `lastSyncTime` is the active file's
last successful sync time; `displayedStatus`/`displayedPath` are the
module-level `currentSyncStatus`/`currentFilePath` of `ui.js`. -/
structure AppState where
  activeFile : Option String
  dbxInit : Bool
  online : Bool
  localLastModified : Option Int
  todos : List Todo
  nextId : Nat
  store : List (String × String)
  lastSyncTime : Option Int
  displayedStatus : SyncStatus
  displayedPath : Option String
deriving DecidableEq, Repr

/-- The path a status update applies to: `filePath || getActiveFile()`
from `updateSyncIndicator` in `assets/js/dropbox/ui.js`. -/
def relevantFilePathFor (s : AppState) (filePath : Option String) : Option String :=
  match filePath with
  | some p => some p
  | none => s.activeFile

/-- Model of `updateSyncIndicator(status, message, filePath)` from
`assets/js/dropbox/ui.js`.  The update is skipped when both the status and
the path are unchanged and the status is not `ERROR`; otherwise the
displayed status and path are overwritten.  (The DOM writes and the
tooltip text carry no further state.) -/
def updateSyncIndicator (s : AppState) (status : SyncStatus) (filePath : Option String) :
    AppState :=
  if status = s.displayedStatus ∧ relevantFilePathFor s filePath = s.displayedPath ∧
      status ≠ SyncStatus.error
  then s
  else { s with displayedStatus := status, displayedPath := relevantFilePathFor s filePath }

@[simp] theorem updateSyncIndicator_activeFile (s : AppState) (st : SyncStatus)
    (fp : Option String) : (updateSyncIndicator s st fp).activeFile = s.activeFile := by
  unfold updateSyncIndicator
  split <;> rfl

@[simp] theorem updateSyncIndicator_dbxInit (s : AppState) (st : SyncStatus)
    (fp : Option String) : (updateSyncIndicator s st fp).dbxInit = s.dbxInit := by
  unfold updateSyncIndicator
  split <;> rfl

@[simp] theorem updateSyncIndicator_online (s : AppState) (st : SyncStatus)
    (fp : Option String) : (updateSyncIndicator s st fp).online = s.online := by
  unfold updateSyncIndicator
  split <;> rfl

@[simp] theorem updateSyncIndicator_localLastModified (s : AppState) (st : SyncStatus)
    (fp : Option String) :
    (updateSyncIndicator s st fp).localLastModified = s.localLastModified := by
  unfold updateSyncIndicator
  split <;> rfl

@[simp] theorem updateSyncIndicator_todos (s : AppState) (st : SyncStatus)
    (fp : Option String) : (updateSyncIndicator s st fp).todos = s.todos := by
  unfold updateSyncIndicator
  split <;> rfl

@[simp] theorem updateSyncIndicator_nextId (s : AppState) (st : SyncStatus)
    (fp : Option String) : (updateSyncIndicator s st fp).nextId = s.nextId := by
  unfold updateSyncIndicator
  split <;> rfl

@[simp] theorem updateSyncIndicator_store (s : AppState) (st : SyncStatus)
    (fp : Option String) : (updateSyncIndicator s st fp).store = s.store := by
  unfold updateSyncIndicator
  split <;> rfl

@[simp] theorem updateSyncIndicator_lastSyncTime (s : AppState) (st : SyncStatus)
    (fp : Option String) : (updateSyncIndicator s st fp).lastSyncTime = s.lastSyncTime := by
  unfold updateSyncIndicator
  split <;> rfl

@[simp] theorem updateSyncIndicator_displayedStatus (s : AppState) (st : SyncStatus)
    (fp : Option String) : (updateSyncIndicator s st fp).displayedStatus = st := by
  unfold updateSyncIndicator
  split
  · next h => exact h.1.symm
  · rfl

/-- Model of `filePath.replace(/\//g, '_')`: every slash becomes an
underscore. -/
def sanitizePath (filePath : String) : String :=
  String.mk (filePath.data.map (fun c => if c = '/' then '_' else c))

/-- Model of `getDynamicPendingKey` from `assets/js/dropbox/offline.js`:
`null` (here `none`) for an empty path, otherwise
`"pending_upload" + path` with slashes replaced by underscores. -/
def getDynamicPendingKey (filePath : String) : Option String :=
  if filePath = "" then none
  else some ("pending_upload" ++ sanitizePath filePath)

/-- Model of `isUploadPending(filePath)` from `assets/js/dropbox/offline.js`. -/
def isUploadPending (store : List (String × String)) (filePath : String) : Bool :=
  match getDynamicPendingKey filePath with
  | none => false
  | some k => lsGet store k = some "true"

/-- Model of `setUploadPending(filePath)` from `assets/js/dropbox/offline.js`:
writes the dynamic key and, when `filePath` is the active file,
unconditionally pushes a `PENDING` status update. -/
def setUploadPending (s : AppState) (filePath : String) : AppState :=
  match getDynamicPendingKey filePath with
  | none => s
  | some k =>
    let s1 := { s with store := lsSet s.store k "true" }
    if some filePath = s1.activeFile
    then updateSyncIndicator s1 SyncStatus.pending (some filePath)
    else s1

/-- Model of `clearUploadPending(filePath)` from
`assets/js/dropbox/offline.js`: removes the dynamic key and performs no
status update. -/
def clearUploadPending (s : AppState) (filePath : String) : AppState :=
  match getDynamicPendingKey filePath with
  | none => s
  | some k => { s with store := lsRemove s.store k }

@[simp] theorem clearUploadPending_todos (s : AppState) (p : String) :
    (clearUploadPending s p).todos = s.todos := by
  unfold clearUploadPending
  split <;> rfl

@[simp] theorem clearUploadPending_localLastModified (s : AppState) (p : String) :
    (clearUploadPending s p).localLastModified = s.localLastModified := by
  unfold clearUploadPending
  split <;> rfl

@[simp] theorem clearUploadPending_dbxInit (s : AppState) (p : String) :
    (clearUploadPending s p).dbxInit = s.dbxInit := by
  unfold clearUploadPending
  split <;> rfl

@[simp] theorem clearUploadPending_activeFile (s : AppState) (p : String) :
    (clearUploadPending s p).activeFile = s.activeFile := by
  unfold clearUploadPending
  split <;> rfl

@[simp] theorem clearUploadPending_nextId (s : AppState) (p : String) :
    (clearUploadPending s p).nextId = s.nextId := by
  unfold clearUploadPending
  split <;> rfl

@[simp] theorem clearUploadPending_displayedStatus (s : AppState) (p : String) :
    (clearUploadPending s p).displayedStatus = s.displayedStatus := by
  unfold clearUploadPending
  split <;> rfl

theorem lsGet_lsSet_ne (store : List (String × String)) (k k1 v : String) (h : k1 ≠ k) :
    lsGet (lsSet store k v) k1 = lsGet store k1 := by
  have hk : ¬ k = k1 := fun hh => h hh.symm
  simp [lsSet, lsGet, hk]

theorem lsGet_lsRemove_ne (store : List (String × String)) (k k1 : String) (h : k1 ≠ k) :
    lsGet (lsRemove store k) k1 = lsGet store k1 := by
  induction store with
  | nil => rfl
  | cons kv rest ih =>
    by_cases hk : kv.1 = k
    · have h2 : ¬ kv.1 = k1 := by
        rw [hk]
        exact fun hh => h hh.symm
      simp only [lsRemove, List.filter] at ih ⊢
      rw [show (decide (kv.1 ≠ k)) = false by simp [hk]]
      rw [ih, lsGet, if_neg h2]
    · simp only [lsRemove, List.filter] at ih ⊢
      rw [show (decide (kv.1 ≠ k)) = true by simp [hk]]
      by_cases hk1 : kv.1 = k1
      · rw [lsGet, if_pos hk1, lsGet, if_pos hk1]
      · rw [lsGet, if_neg hk1, lsGet, if_neg hk1]
        exact ih

theorem lsGet_lsRemove_self (store : List (String × String)) (k : String) :
    lsGet (lsRemove store k) k = none := by
  induction store with
  | nil => rfl
  | cons kv rest ih =>
    by_cases hk : kv.1 = k
    · simp only [lsRemove, List.filter] at ih ⊢
      rw [show (decide (kv.1 ≠ k)) = false by simp [hk]]
      exact ih
    · simp only [lsRemove, List.filter] at ih ⊢
      rw [show (decide (kv.1 ≠ k)) = true by simp [hk]]
      rw [lsGet, if_neg hk]
      exact ih

theorem isUploadPending_clearUploadPending_self (s : AppState) (p : String) :
    isUploadPending (clearUploadPending s p).store p = false := by
  unfold isUploadPending clearUploadPending
  cases h : getDynamicPendingKey p with
  | none => simp [h]
  | some k => simp [h, lsGet_lsRemove_self]

theorem lsGet_lsSet_self (store : List (String × String)) (k v : String) :
    lsGet (lsSet store k v) k = some v := by
  simp [lsSet, lsGet]

/-- Claim C7 (counterexample).  The claim states that when the displayed
status is `Offline`, `setUploadPending` on the active file leaves the
displayed status `Offline`.  In the code (`offline.js`), `setUploadPending`
pushes `PENDING` unconditionally whenever the path is the active file, and
`updateSyncIndicator` applies it, so a state displaying `Offline` ends up
displaying `Pending`. -/
theorem setUploadPending_offline_overridden :
    (AppState.mk (some "/t") true true none [] 0 [] none SyncStatus.offline
        (some "/t")).displayedStatus = SyncStatus.offline
    ∧ (setUploadPending
        (AppState.mk (some "/t") true true none [] 0 [] none SyncStatus.offline
          (some "/t")) "/t").displayedStatus ≠ SyncStatus.offline := by
  constructor
  · rfl
  · decide

/-- Claim C7 (amended): whenever `setUploadPending` is called with the
(non-empty) path of the currently active file, it sets the pending flag and
pushes a status update to `Pending` — unconditionally, even when the
currently displayed status is `Offline` (the code has no Offline-precedence
check). -/
theorem setUploadPending_active_pushes_pending (s : AppState) (p : String)
    (hp : p ≠ "") (ha : s.activeFile = some p) :
    (setUploadPending s p).displayedStatus = SyncStatus.pending ∧
    isUploadPending (setUploadPending s p).store p = true := by
  unfold setUploadPending
  rw [show getDynamicPendingKey p = some ("pending_upload" ++ sanitizePath p) by
    simp [getDynamicPendingKey, hp]]
  simp only [ha]
  rw [if_pos trivial]
  refine ⟨updateSyncIndicator_displayedStatus _ _ _, ?_⟩
  rw [updateSyncIndicator_store]
  unfold isUploadPending
  rw [show getDynamicPendingKey p = some ("pending_upload" ++ sanitizePath p) by
    simp [getDynamicPendingKey, hp]]
  dsimp only
  simp [lsGet_lsSet_self]

/-- Witness for `setUploadPending_active_pushes_pending` at a concrete
state and path. -/
theorem setUploadPending_active_pushes_pending_witness :
    ("/t" : String) ≠ ""
    ∧ (AppState.mk (some "/t") true true none [] 0 [] none SyncStatus.offline
        (some "/t")).activeFile = some "/t"
    ∧ ((setUploadPending
          (AppState.mk (some "/t") true true none [] 0 [] none SyncStatus.offline
            (some "/t")) "/t").displayedStatus = SyncStatus.pending ∧
        isUploadPending
          (setUploadPending
            (AppState.mk (some "/t") true true none [] 0 [] none SyncStatus.offline
              (some "/t")) "/t").store "/t" = true) :=
  ⟨by decide, rfl,
    setUploadPending_active_pushes_pending _ "/t" (by decide) rfl⟩

/-- Claim C8 (counterexample).  The claim quantifies over all pairs of
distinct paths, but `getDynamicPendingKey` replaces every `/` with `_`, so
the distinct paths `/a/b` and `/a_b` share the storage key
`pending_upload_a_b`: setting the pending flag for `/a/b` makes
`isUploadPending` report `true` for `/a_b`. -/
theorem pendingKey_collision :
    ("/a/b" : String) ≠ "/a_b"
    ∧ isUploadPending ([] : List (String × String)) "/a_b" = false
    ∧ isUploadPending
        (setUploadPending
          (AppState.mk none true true none [] 0 [] none SyncStatus.idle none)
          "/a/b").store "/a_b" = true := by
  refine ⟨by decide, by decide, by decide⟩

/-- Claim C8 (amended): for two paths whose sanitized storage keys differ
(in particular for any two distinct paths that do not collide after `/`
is replaced by `_`), `setUploadPending p` and `clearUploadPending p` do
not change `isUploadPending q`. -/
theorem pending_flags_independent (s : AppState) (p q : String)
    (h : getDynamicPendingKey p ≠ getDynamicPendingKey q) :
    isUploadPending (setUploadPending s p).store q = isUploadPending s.store q ∧
    isUploadPending (clearUploadPending s p).store q = isUploadPending s.store q := by
  cases hp : getDynamicPendingKey p with
  | none => simp [setUploadPending, clearUploadPending, hp]
  | some k =>
    rw [hp] at h
    cases hq : getDynamicPendingKey q with
    | none => simp [isUploadPending, hq]
    | some k1 =>
      rw [hq] at h
      have hkk : k1 ≠ k := fun hh => h (by rw [hh])
      constructor
      · unfold setUploadPending
        rw [hp]
        have hstore : (if some p = ({ s with store := lsSet s.store k "true" } : AppState).activeFile
            then updateSyncIndicator { s with store := lsSet s.store k "true" }
              SyncStatus.pending (some p)
            else { s with store := lsSet s.store k "true" }).store = lsSet s.store k "true" := by
          split
          · rw [updateSyncIndicator_store]
          · rfl
        rw [hstore]
        unfold isUploadPending
        rw [hq]
        dsimp only
        rw [lsGet_lsSet_ne s.store k k1 "true" hkk]
      · unfold clearUploadPending
        rw [hp]
        unfold isUploadPending
        rw [hq]
        dsimp only
        rw [lsGet_lsRemove_ne s.store k k1 hkk]

/-- Witness for `pending_flags_independent` at two concrete
non-colliding paths. -/
theorem pending_flags_independent_witness :
    getDynamicPendingKey "/a" ≠ getDynamicPendingKey "/b"
    ∧ (isUploadPending
        (setUploadPending
          (AppState.mk (some "/a") true true none [] 0 [] none SyncStatus.idle none)
          "/a").store "/b" =
        isUploadPending
          (AppState.mk (some "/a") true true none [] 0 [] none SyncStatus.idle none).store "/b" ∧
      isUploadPending
        (clearUploadPending
          (AppState.mk (some "/a") true true none [] 0 [] none SyncStatus.idle none)
          "/a").store "/b" =
        isUploadPending
          (AppState.mk (some "/a") true true none [] 0 [] none SyncStatus.idle none).store "/b") :=
  ⟨by decide, pending_flags_independent _ "/a" "/b" (by decide)⟩

/-- Outcome of the Dropbox SDK call `dbx.filesGetMetadata`, as distinguished
by the error handling in `getDropboxFileMetadata` (`assets/js/dropbox/api.js`):
a metadata object (with its `.tag === 'file'` flag and optional
`server_modified` timestamp), a `path/not_found` error, an authentication
error, or any other error. -/
inductive MetaFetch where
  | success (isFile : Bool) (serverModified : Option Int)
  | notFound
  | authError
  | otherError
deriving DecidableEq, Repr

/-- The metadata object returned by the gateway: `.tag === 'file'` and
`server_modified`. -/
structure DropboxMeta where
  isFile : Bool
  serverModified : Option Int
deriving DecidableEq, Repr

/-- Model of `getDropboxFileMetadata(filePath)` from
`assets/js/dropbox/api.js`: returns `null` when the API is uninitialized or
the path is empty; returns the metadata on success; returns `null` for a
`path/not_found` error; and — the point of claim C6 — also returns `null`
for authentication and all other errors. -/
def getDropboxFileMetadata (dbxInit : Bool) (filePath : String) (fetch : MetaFetch) :
    Option DropboxMeta :=
  if dbxInit = false then none
  else if filePath = "" then none
  else match fetch with
    | MetaFetch.success isFile serverModified => some ⟨isFile, serverModified⟩
    | MetaFetch.notFound => none
    | MetaFetch.authError => none
    | MetaFetch.otherError => none

/-- The three-way outcome of `showConflictModal`: `'local'`, `'dropbox'`,
or `null` (dismissed/cancelled). -/
inductive ConflictChoice where
  | keepLocal
  | keepDropbox
  | cancelled
deriving DecidableEq, Repr

/-- The awaited outcomes a sync pass can encounter: the metadata fetch
result, the download result (`some content` on success, `none` on
failure/missing blob), whether `filesUpload` succeeds, the user's conflict
choice, and the current wall-clock time used by `saveTodosToStorage` and
`setLastSyncTime`.  A deterministic remote: repeated calls within one pass
see the same outcomes. -/
structure SyncEnv where
  metaFetch : MetaFetch
  downloadResult : Option String
  uploadOk : Bool
  userChoice : ConflictChoice
  now : Int
deriving DecidableEq, Repr

/-- Model of `setLastSyncTime(filePath)` from `todo-storage.js` for the
active file: records the current time as the last successful sync time. -/
def setLastSyncTime (s : AppState) (now : Int) : AppState :=
  { s with lastSyncTime := some now }

/-- Model of `saveTodosToStorage(todoObjects)` from
`assets/js/todo-storage.js`: overwrites the stored list and sets the
local last-modified timestamp to the current time. -/
def saveTodosToStorage (s : AppState) (now : Int) (todoObjects : List Todo) : AppState :=
  { s with todos := todoObjects, localLastModified := some now }

/-- Model of JavaScript `textContent.split('\n')` on the character list:
splitting an empty string yields `[""]`, and a trailing newline yields a
trailing empty field. -/
def splitLinesList : List Char → List (List Char)
  | [] => [[]]
  | c :: cs =>
    let rest := splitLinesList cs
    if c = '\n' then [] :: rest
    else match rest with
      | [] => [[c]]
      | h :: t => (c :: h) :: t

/-- String version of `splitLinesList`. -/
def splitLines (s : String) : List String :=
  (splitLinesList s.data).map String.mk

/-- Model of JavaScript `line.trim()`: strip whitespace from both ends. -/
def jsTrim (line : String) : String :=
  String.mk (((line.data.dropWhile Char.isWhitespace).reverse.dropWhile
    Char.isWhitespace).reverse)

/-- The line-normalization pipeline of `saveTodosFromText`
(`todo-load.js`): split on `'\n'`, trim each line, drop empty lines. -/
def parseTodoLines (textContent : String) : List String :=
  ((splitLines textContent).map jsTrim).filter (fun l => l ≠ "")

/-- Model of `saveTodosFromText(textContent)` from `todo-load.js`:
normalizes the text into lines and overwrites local storage with fresh
`{id, text}` objects, one per non-empty trimmed line. -/
def saveTodosFromText (s : AppState) (now : Int) (textContent : String) : AppState :=
  let lines := parseTodoLines textContent
  let newTodoObjects := lines.enum.map (fun pr => Todo.mk (s.nextId + pr.1) pr.2)
  saveTodosToStorage { s with nextId := s.nextId + lines.length } now newTodoObjects

/-- The plain-text file content uploaded for a task list:
`todos.map(todo => todo.text).join('\n')`. -/
def todoFileContent (todos : List Todo) : String :=
  String.intercalate "\n" (todos.map Todo.text)

/-- The observable result of one sync pass: the final application state,
the contents passed to upload calls, the number of download calls, and the
`(localDate, dropboxDate, path)` arguments of each `showConflictModal`
invocation. -/
structure SyncOutcome where
  state : AppState
  uploads : List String
  downloads : Nat
  conflicts : List (Int × Int × String)
deriving DecidableEq, Repr

/-- Model of `coordinateSync()` from `todo-sync-coordinator.js` (the Sync
Coordinator's pass for the active file).  Guard order, branch structure and
the ledger/status mutations follow the source line by line; the refactored
gateway upload/download called here (upload takes the content and returns
a success boolean; download resolves to the content or a failure) is
represented by the outcomes in `SyncEnv`.  `loadTodos($('#todo-list'))`
re-renders the UI and is stateless here. -/
def coordinateSync (s0 : AppState) (env : SyncEnv) : SyncOutcome :=
  match s0.activeFile with
  | none => ⟨updateSyncIndicator s0 SyncStatus.error none, [], 0, []⟩
  | some activeFilePath =>
    if s0.dbxInit = false then ⟨s0, [], 0, []⟩
    else if s0.online = false then
      ⟨updateSyncIndicator s0 SyncStatus.offline (some activeFilePath), [], 0, []⟩
    else
      let s1 := updateSyncIndicator s0 SyncStatus.syncing (some activeFilePath)
      let localDate := s1.localLastModified
      let dropboxMeta := getDropboxFileMetadata s1.dbxInit activeFilePath env.metaFetch
      let dropboxDate : Option Int :=
        match dropboxMeta with
        | some m => if m.isFile then m.serverModified else none
        | none => none
      let body : AppState × SyncStatus × List String × Nat × List (Int × Int × String) :=
        match dropboxDate, localDate with
        | none, some _ =>
          let content := todoFileContent s1.todos
          if env.uploadOk then
            (clearUploadPending (setLastSyncTime s1 env.now) activeFilePath,
              SyncStatus.idle, [content], 0, [])
          else (s1, SyncStatus.error, [content], 0, [])
        | none, none =>
          (clearUploadPending s1 activeFilePath, SyncStatus.idle, [], 0, [])
        | some _, none =>
          match env.downloadResult with
          | some content =>
            let s2 := saveTodosFromText s1 env.now content
            (clearUploadPending (setLastSyncTime s2 env.now) activeFilePath,
              SyncStatus.idle, [], 1, [])
          | none => (s1, SyncStatus.error, [], 1, [])
        | some dropboxDateV, some localDateV =>
          if (localDateV - dropboxDateV).natAbs ≤ 2000 then
            (clearUploadPending s1 activeFilePath, SyncStatus.idle, [], 0, [])
          else if dropboxDateV > localDateV then
            if isUploadPending s1.store activeFilePath then
              let conflicts := [(localDateV, dropboxDateV, activeFilePath)]
              match env.userChoice with
              | ConflictChoice.keepLocal =>
                let content := todoFileContent s1.todos
                if env.uploadOk then
                  (clearUploadPending (setLastSyncTime s1 env.now) activeFilePath,
                    SyncStatus.idle, [content], 0, conflicts)
                else (s1, SyncStatus.error, [content], 0, conflicts)
              | ConflictChoice.keepDropbox =>
                let s2 := updateSyncIndicator s1 SyncStatus.syncing none
                match env.downloadResult with
                | some content =>
                  let s3 := saveTodosFromText s2 env.now content
                  (clearUploadPending (setLastSyncTime s3 env.now) activeFilePath,
                    SyncStatus.idle, [], 1, conflicts)
                | none => (s2, SyncStatus.error, [], 1, conflicts)
              | ConflictChoice.cancelled =>
                (clearUploadPending s1 activeFilePath, SyncStatus.idle, [], 0, conflicts)
            else
              let s2 := updateSyncIndicator s1 SyncStatus.syncing none
              match env.downloadResult with
              | some content =>
                let s3 := saveTodosFromText s2 env.now content
                (setLastSyncTime s3 env.now, SyncStatus.idle, [], 1, [])
              | none => (s2, SyncStatus.error, [], 1, [])
          else
            let content := todoFileContent s1.todos
            if env.uploadOk then
              (clearUploadPending (setLastSyncTime s1 env.now) activeFilePath,
                SyncStatus.idle, [content], 0, [])
            else (s1, SyncStatus.error, [content], 0, [])
      let final := body
      let s4 :=
        if final.1.dbxInit = true then
          updateSyncIndicator final.1 final.2.1 (some activeFilePath)
        else updateSyncIndicator final.1 SyncStatus.notConnected none
      ⟨s4, final.2.2.1, final.2.2.2.1, final.2.2.2.2⟩

/-- Model of `uploadTodosToDropbox(filePath)` from
`assets/js/dropbox/api.js` (the legacy upload with its pre-upload conflict
check).  When offline it only sets the pending flag; otherwise it fetches
metadata, shows the conflict modal if the remote is strictly newer than
the local timestamp, and uploads, downloads, or cancels according to the
user's choice.  A failing `filesUpload` is the `env.uploadOk = false`
case (the catch block sets `ERROR`).  Note: unlike the coordinator, the
cancel branch here does not touch the pending flag, and no branch records
a last-sync time. -/
def uploadTodosToDropbox (s0 : AppState) (env : SyncEnv) (filePath : String) : SyncOutcome :=
  if filePath = "" then ⟨updateSyncIndicator s0 SyncStatus.error none, [], 0, []⟩
  else if s0.online = false then ⟨setUploadPending s0 filePath, [], 0, []⟩
  else if s0.dbxInit = false then ⟨updateSyncIndicator s0 SyncStatus.error none, [], 0, []⟩
  else
    let s1 := updateSyncIndicator s0 SyncStatus.syncing none
    let localDate := s1.localLastModified
    let dropboxMeta := getDropboxFileMetadata s1.dbxInit filePath env.metaFetch
    let dropboxDate : Option Int :=
      match dropboxMeta with
      | some m => if m.isFile then m.serverModified else none
      | none => none
    let preCheck : AppState × SyncStatus × Bool × Nat × List (Int × Int × String) :=
      match dropboxDate, localDate with
      | some dropboxDateV, some localDateV =>
        if dropboxDateV > localDateV then
          let conflicts := [(localDateV, dropboxDateV, filePath)]
          match env.userChoice with
          | ConflictChoice.keepLocal => (s1, SyncStatus.idle, true, 0, conflicts)
          | ConflictChoice.keepDropbox =>
            let s2 := updateSyncIndicator s1 SyncStatus.syncing none
            match env.downloadResult with
            | some content =>
              let s3 := clearUploadPending (saveTodosFromText s2 env.now content) filePath
              (s3, SyncStatus.idle, false, 1, conflicts)
            | none => (s2, SyncStatus.error, false, 1, conflicts)
          | ConflictChoice.cancelled => (s1, SyncStatus.idle, false, 0, conflicts)
        else (s1, SyncStatus.idle, true, 0, [])
      | _, _ => (s1, SyncStatus.idle, true, 0, [])
    let afterUpload : AppState × SyncStatus × List String × Nat × List (Int × Int × String) :=
      if preCheck.2.2.1 then
        let content := todoFileContent preCheck.1.todos
        if env.uploadOk then
          (clearUploadPending preCheck.1 filePath, SyncStatus.idle, [content],
            preCheck.2.2.2.1, preCheck.2.2.2.2)
        else (preCheck.1, SyncStatus.error, [content], preCheck.2.2.2.1, preCheck.2.2.2.2)
      else (preCheck.1, preCheck.2.1, [], preCheck.2.2.2.1, preCheck.2.2.2.2)
    ⟨updateSyncIndicator afterUpload.1 afterUpload.2.1 none, afterUpload.2.2.1,
      afterUpload.2.2.2.1, afterUpload.2.2.2.2⟩

/-- Model of the legacy sync pass `syncWithDropbox()` from
`assets/js/dropbox/api.js`, still triggered from `initializeDropboxApi`.
Unlike `coordinateSync`, its remote-newer branch shows the conflict modal
unconditionally — it never consults `isUploadPending`. -/
def syncWithDropbox (s0 : AppState) (env : SyncEnv) : SyncOutcome :=
  match s0.activeFile with
  | none => ⟨updateSyncIndicator s0 SyncStatus.error none, [], 0, []⟩
  | some activeFilePath =>
    if s0.dbxInit = false then ⟨s0, [], 0, []⟩
    else if s0.online = false then
      ⟨updateSyncIndicator s0 SyncStatus.offline none, [], 0, []⟩
    else
      let s1 := updateSyncIndicator s0 SyncStatus.syncing none
      let localDate := s1.localLastModified
      let dropboxMeta := getDropboxFileMetadata s1.dbxInit activeFilePath env.metaFetch
      let dropboxDate : Option Int :=
        match dropboxMeta with
        | some m => if m.isFile then m.serverModified else none
        | none => none
      let body : AppState × SyncStatus × List String × Nat × List (Int × Int × String) :=
        match dropboxDate, localDate with
        | none, some _ =>
          let nested := uploadTodosToDropbox s1 env activeFilePath
          (nested.state, SyncStatus.idle, nested.uploads, nested.downloads, nested.conflicts)
        | none, none => (s1, SyncStatus.idle, [], 0, [])
        | some _, none =>
          match env.downloadResult with
          | some content =>
            (clearUploadPending (saveTodosFromText s1 env.now content) activeFilePath,
              SyncStatus.idle, [], 1, [])
          | none => (s1, SyncStatus.error, [], 1, [])
        | some dropboxDateV, some localDateV =>
          if (localDateV - dropboxDateV).natAbs ≤ 2000 then
            (clearUploadPending s1 activeFilePath, SyncStatus.idle, [], 0, [])
          else if dropboxDateV > localDateV then
            let conflicts := [(localDateV, dropboxDateV, activeFilePath)]
            match env.userChoice with
            | ConflictChoice.keepLocal =>
              let nested := uploadTodosToDropbox s1 env activeFilePath
              (nested.state, SyncStatus.idle, nested.uploads, nested.downloads,
                conflicts ++ nested.conflicts)
            | ConflictChoice.keepDropbox =>
              let s2 := updateSyncIndicator s1 SyncStatus.syncing none
              match env.downloadResult with
              | some content =>
                (clearUploadPending (saveTodosFromText s2 env.now content) activeFilePath,
                  SyncStatus.idle, [], 1, conflicts)
              | none => (s2, SyncStatus.error, [], 1, conflicts)
            | ConflictChoice.cancelled =>
              (clearUploadPending s1 activeFilePath, SyncStatus.idle, [], 0, conflicts)
          else
            let nested := uploadTodosToDropbox s1 env activeFilePath
            (nested.state, SyncStatus.idle, nested.uploads, nested.downloads, nested.conflicts)
      ⟨updateSyncIndicator body.1 body.2.1 none, body.2.2.1, body.2.2.2.1, body.2.2.2.2⟩

theorem map_text_enum_mk (n : Nat) (l : List String) :
    List.map (Todo.text ∘ fun pr => Todo.mk (n + pr.1) pr.2) l.enum = l := by
  have hc : (Todo.text ∘ fun pr : Nat × String => Todo.mk (n + pr.1) pr.2) = Prod.snd := rfl
  rw [hc]
  exact List.enum_map_snd l

/-- Claim C1 (counterexample).  The claim states that a cancelled conflict
leaves the pending-upload flag untouched.  In `coordinateSync` the
cancel branch calls `clearUploadPending`, so a pass entered with the flag
set ends with it cleared. -/
theorem coordinateSync_cancel_pending_cleared_cex :
    isUploadPending [("pending_upload_t", "true")] "/t" = true
    ∧ (coordinateSync
        (AppState.mk (some "/t") true true (some 0) [Todo.mk 0 "a"] 1
          [("pending_upload_t", "true")] none SyncStatus.pending (some "/t"))
        (SyncEnv.mk (MetaFetch.success true (some 3000)) (some "r") true
          ConflictChoice.cancelled 99)).conflicts = [(0, 3000, "/t")]
    ∧ isUploadPending
        (coordinateSync
          (AppState.mk (some "/t") true true (some 0) [Todo.mk 0 "a"] 1
            [("pending_upload_t", "true")] none SyncStatus.pending (some "/t"))
          (SyncEnv.mk (MetaFetch.success true (some 3000)) (some "r") true
            ConflictChoice.cancelled 99)).state.store "/t" = false := by
  refine ⟨by decide, by decide, by decide⟩

/-- Claim C1 (amended): when the Conflict Resolver returns `null`
(cancelled), the pass performs no upload and no download, leaves the local
content and timestamp unchanged, sets status `Idle` — and `clears` the
pending-upload flag for the active file (the code explicitly clears it
rather than leaving it untouched). -/
theorem coordinateSync_cancel_outcome (p : String) (hp : p ≠ "")
    (ld rd now2 : Int) (todos : List Todo) (nid : Nat) (store : List (String × String))
    (lst : Option Int) (ds : SyncStatus) (dp : Option String)
    (dres : Option String) (upOk : Bool)
    (hgt : ld + 2000 < rd) (hpend : isUploadPending store p = true) (out : SyncOutcome)
    (hout : out = coordinateSync
      (AppState.mk (some p) true true (some ld) todos nid store lst ds dp)
      (SyncEnv.mk (MetaFetch.success true (some rd)) dres upOk ConflictChoice.cancelled now2)) :
    out.conflicts = [(ld, rd, p)] ∧ out.uploads = [] ∧ out.downloads = 0 ∧
    out.state.todos = todos ∧ out.state.localLastModified = some ld ∧
    out.state.displayedStatus = SyncStatus.idle ∧
    isUploadPending out.state.store p = false := by
  subst hout
  have h1 : ¬ ((ld - rd).natAbs ≤ 2000) := by omega
  have h2 : rd > ld := by omega
  unfold coordinateSync
  simp [getDropboxFileMetadata, hp, h1, h2, hpend, isUploadPending_clearUploadPending_self]

/-- Witness for `coordinateSync_cancel_outcome` at a concrete pass. -/
theorem coordinateSync_cancel_outcome_witness :
    ("/t" : String) ≠ "" ∧ ((0 : Int) + 2000 < 3000) ∧
    isUploadPending [("pending_upload_t", "true")] "/t" = true ∧
    ((coordinateSync
        (AppState.mk (some "/t") true true (some 0) [Todo.mk 0 "a"] 1
          [("pending_upload_t", "true")] none SyncStatus.pending (some "/t"))
        (SyncEnv.mk (MetaFetch.success true (some 3000)) (some "r") true
          ConflictChoice.cancelled 99)).conflicts = [(0, 3000, "/t")] ∧
      (coordinateSync
        (AppState.mk (some "/t") true true (some 0) [Todo.mk 0 "a"] 1
          [("pending_upload_t", "true")] none SyncStatus.pending (some "/t"))
        (SyncEnv.mk (MetaFetch.success true (some 3000)) (some "r") true
          ConflictChoice.cancelled 99)).uploads = [] ∧
      (coordinateSync
        (AppState.mk (some "/t") true true (some 0) [Todo.mk 0 "a"] 1
          [("pending_upload_t", "true")] none SyncStatus.pending (some "/t"))
        (SyncEnv.mk (MetaFetch.success true (some 3000)) (some "r") true
          ConflictChoice.cancelled 99)).downloads = 0 ∧
      (coordinateSync
        (AppState.mk (some "/t") true true (some 0) [Todo.mk 0 "a"] 1
          [("pending_upload_t", "true")] none SyncStatus.pending (some "/t"))
        (SyncEnv.mk (MetaFetch.success true (some 3000)) (some "r") true
          ConflictChoice.cancelled 99)).state.todos = [Todo.mk 0 "a"] ∧
      (coordinateSync
        (AppState.mk (some "/t") true true (some 0) [Todo.mk 0 "a"] 1
          [("pending_upload_t", "true")] none SyncStatus.pending (some "/t"))
        (SyncEnv.mk (MetaFetch.success true (some 3000)) (some "r") true
          ConflictChoice.cancelled 99)).state.localLastModified = some 0 ∧
      (coordinateSync
        (AppState.mk (some "/t") true true (some 0) [Todo.mk 0 "a"] 1
          [("pending_upload_t", "true")] none SyncStatus.pending (some "/t"))
        (SyncEnv.mk (MetaFetch.success true (some 3000)) (some "r") true
          ConflictChoice.cancelled 99)).state.displayedStatus = SyncStatus.idle ∧
      isUploadPending
        (coordinateSync
          (AppState.mk (some "/t") true true (some 0) [Todo.mk 0 "a"] 1
            [("pending_upload_t", "true")] none SyncStatus.pending (some "/t"))
          (SyncEnv.mk (MetaFetch.success true (some 3000)) (some "r") true
            ConflictChoice.cancelled 99)).state.store "/t" = false) :=
  ⟨by decide, by decide, by decide,
    coordinateSync_cancel_outcome "/t" (by decide) 0 3000 99 [Todo.mk 0 "a"] 1
      [("pending_upload_t", "true")] none SyncStatus.pending (some "/t") (some "r") true
      (by decide) (by decide) _ rfl⟩

/-- Claim C2 (counterexample).  The claim states that a sync pass with
`remote > local + 2000ms` and `isPending == false` pulls without invoking
the Conflict Resolver.  The legacy pass `syncWithDropbox` (still called
from `initializeDropboxApi` in `assets/js/dropbox/api.js`) never consults
`isUploadPending`: at a state with the flag clear it invokes the Conflict
Resolver, and when the user dismisses the dialog it performs no download
at all. -/
theorem syncWithDropbox_ignores_pending_cex :
    isUploadPending ([] : List (String × String)) "/t" = false
    ∧ (syncWithDropbox
        (AppState.mk (some "/t") true true (some 0) [Todo.mk 0 "a"] 1 [] none
          SyncStatus.idle none)
        (SyncEnv.mk (MetaFetch.success true (some 3000)) (some "r") true
          ConflictChoice.cancelled 99)).conflicts = [(0, 3000, "/t")]
    ∧ (syncWithDropbox
        (AppState.mk (some "/t") true true (some 0) [Todo.mk 0 "a"] 1 [] none
          SyncStatus.idle none)
        (SyncEnv.mk (MetaFetch.success true (some 3000)) (some "r") true
          ConflictChoice.cancelled 99)).downloads = 0 := by
  refine ⟨by decide, by decide, by decide⟩

/-- Claim C2 (amended): for a pass with both timestamps present and
`remote > local + 2000ms`, the coordinator `coordinateSync` behaves as
claimed — with `isPending` false it performs exactly one download and no
conflict dialog, overwriting local content on success; with `isPending`
true it invokes the Conflict Resolver exactly once with the two
timestamps.  The legacy `syncWithDropbox` pass (still reachable from
`initializeDropboxApi`) instead invokes the Conflict Resolver first in
every such pass, regardless of `isPending`. -/
theorem remoteNewer_pass_behaviour (p : String) (hp : p ≠ "")
    (ld rd now2 : Int) (todos : List Todo) (nid : Nat) (store : List (String × String))
    (lst : Option Int) (ds : SyncStatus) (dp : Option String)
    (dres : Option String) (upOk : Bool) (choice : ConflictChoice)
    (hgt : ld + 2000 < rd) :
    (isUploadPending store p = false →
      (coordinateSync (AppState.mk (some p) true true (some ld) todos nid store lst ds dp)
        (SyncEnv.mk (MetaFetch.success true (some rd)) dres upOk choice now2)).conflicts = [] ∧
      (coordinateSync (AppState.mk (some p) true true (some ld) todos nid store lst ds dp)
        (SyncEnv.mk (MetaFetch.success true (some rd)) dres upOk choice now2)).downloads = 1 ∧
      ∀ c, dres = some c →
        ((coordinateSync (AppState.mk (some p) true true (some ld) todos nid store lst ds dp)
          (SyncEnv.mk (MetaFetch.success true (some rd)) dres upOk choice
            now2)).state.todos.map Todo.text) = parseTodoLines c) ∧
    (isUploadPending store p = true →
      (coordinateSync (AppState.mk (some p) true true (some ld) todos nid store lst ds dp)
        (SyncEnv.mk (MetaFetch.success true (some rd)) dres upOk choice now2)).conflicts =
        [(ld, rd, p)]) ∧
    (syncWithDropbox (AppState.mk (some p) true true (some ld) todos nid store lst ds dp)
      (SyncEnv.mk (MetaFetch.success true (some rd)) dres upOk choice now2)).conflicts.head? =
      some (ld, rd, p) := by
  have h1 : ¬ ((ld - rd).natAbs ≤ 2000) := by omega
  have h2 : rd > ld := by omega
  refine ⟨?_, ?_, ?_⟩
  · intro hpend
    unfold coordinateSync
    cases dres with
    | none =>
      refine ⟨?_, ?_, ?_⟩
      · simp [getDropboxFileMetadata, hp, h1, h2, hpend]
      · simp [getDropboxFileMetadata, hp, h1, h2, hpend]
      · intro c hc
        exact Option.noConfusion hc
    | some c0 =>
      refine ⟨?_, ?_, ?_⟩
      · simp [getDropboxFileMetadata, hp, h1, h2, hpend]
      · simp [getDropboxFileMetadata, hp, h1, h2, hpend]
      · intro c hc
        injection hc with hc1
        subst hc1
        simp [getDropboxFileMetadata, hp, h1, h2, hpend, saveTodosFromText,
          saveTodosToStorage, setLastSyncTime, map_text_enum_mk]
  · intro hpend
    unfold coordinateSync
    cases dres <;> cases choice <;> cases upOk <;>
      simp [getDropboxFileMetadata, hp, h1, h2, hpend]
  · unfold syncWithDropbox
    cases dres <;> cases choice <;> cases upOk <;>
      simp [getDropboxFileMetadata, hp, h1, h2, uploadTodosToDropbox]

/-- Witness for `remoteNewer_pass_behaviour` at a concrete pass. -/
theorem remoteNewer_pass_behaviour_witness :
    ("/t" : String) ≠ "" ∧ ((0 : Int) + 2000 < 3000) ∧
    ((isUploadPending ([] : List (String × String)) "/t" = false →
      (coordinateSync (AppState.mk (some "/t") true true (some 0) [Todo.mk 0 "a"] 1 [] none
          SyncStatus.idle none)
        (SyncEnv.mk (MetaFetch.success true (some 3000)) (some "b c") true
          ConflictChoice.cancelled 99)).conflicts = [] ∧
      (coordinateSync (AppState.mk (some "/t") true true (some 0) [Todo.mk 0 "a"] 1 [] none
          SyncStatus.idle none)
        (SyncEnv.mk (MetaFetch.success true (some 3000)) (some "b c") true
          ConflictChoice.cancelled 99)).downloads = 1 ∧
      ∀ c, (some "b c" : Option String) = some c →
        ((coordinateSync (AppState.mk (some "/t") true true (some 0) [Todo.mk 0 "a"] 1 [] none
            SyncStatus.idle none)
          (SyncEnv.mk (MetaFetch.success true (some 3000)) (some "b c") true
            ConflictChoice.cancelled 99)).state.todos.map Todo.text) = parseTodoLines c) ∧
    (isUploadPending ([] : List (String × String)) "/t" = true →
      (coordinateSync (AppState.mk (some "/t") true true (some 0) [Todo.mk 0 "a"] 1 [] none
          SyncStatus.idle none)
        (SyncEnv.mk (MetaFetch.success true (some 3000)) (some "b c") true
          ConflictChoice.cancelled 99)).conflicts = [(0, 3000, "/t")]) ∧
    (syncWithDropbox (AppState.mk (some "/t") true true (some 0) [Todo.mk 0 "a"] 1 [] none
        SyncStatus.idle none)
      (SyncEnv.mk (MetaFetch.success true (some 3000)) (some "b c") true
        ConflictChoice.cancelled 99)).conflicts.head? = some (0, 3000, "/t")) :=
  ⟨by decide, by decide,
    remoteNewer_pass_behaviour "/t" (by decide) 0 3000 99 [Todo.mk 0 "a"] 1 [] none
      SyncStatus.idle none (some "b c") true ConflictChoice.cancelled (by decide)⟩

/-- Claim C3 (confirmed): a pass of the coordinator with both timestamps
present and `|local − remote| ≤ 2000ms` never invokes the Conflict
Resolver, performs no upload and no download, leaves the local content and
timestamp unchanged, sets the displayed status to `Idle`, and clears the
pending-upload flag for the active file. -/
theorem coordinateSync_within_tolerance (p : String) (hp : p ≠ "")
    (ld rd now2 : Int) (todos : List Todo) (nid : Nat) (store : List (String × String))
    (lst : Option Int) (ds : SyncStatus) (dp : Option String)
    (dres : Option String) (upOk : Bool) (choice : ConflictChoice)
    (hdiff : (ld - rd).natAbs ≤ 2000) (out : SyncOutcome)
    (hout : out = coordinateSync
      (AppState.mk (some p) true true (some ld) todos nid store lst ds dp)
      (SyncEnv.mk (MetaFetch.success true (some rd)) dres upOk choice now2)) :
    out.conflicts = [] ∧ out.uploads = [] ∧ out.downloads = 0 ∧
    out.state.todos = todos ∧ out.state.localLastModified = some ld ∧
    out.state.displayedStatus = SyncStatus.idle ∧
    isUploadPending out.state.store p = false := by
  subst hout
  unfold coordinateSync
  simp [getDropboxFileMetadata, hp, hdiff, isUploadPending_clearUploadPending_self]

/-- Witness for `coordinateSync_within_tolerance` at a concrete pass. -/
theorem coordinateSync_within_tolerance_witness :
    ("/t" : String) ≠ "" ∧ ((0 : Int) - 1000).natAbs ≤ 2000 ∧
    ((coordinateSync
        (AppState.mk (some "/t") true true (some 0) [Todo.mk 0 "a"] 1
          [("pending_upload_t", "true")] none SyncStatus.pending (some "/t"))
        (SyncEnv.mk (MetaFetch.success true (some 1000)) none true
          ConflictChoice.cancelled 99)).conflicts = [] ∧
      (coordinateSync
        (AppState.mk (some "/t") true true (some 0) [Todo.mk 0 "a"] 1
          [("pending_upload_t", "true")] none SyncStatus.pending (some "/t"))
        (SyncEnv.mk (MetaFetch.success true (some 1000)) none true
          ConflictChoice.cancelled 99)).uploads = [] ∧
      (coordinateSync
        (AppState.mk (some "/t") true true (some 0) [Todo.mk 0 "a"] 1
          [("pending_upload_t", "true")] none SyncStatus.pending (some "/t"))
        (SyncEnv.mk (MetaFetch.success true (some 1000)) none true
          ConflictChoice.cancelled 99)).downloads = 0 ∧
      (coordinateSync
        (AppState.mk (some "/t") true true (some 0) [Todo.mk 0 "a"] 1
          [("pending_upload_t", "true")] none SyncStatus.pending (some "/t"))
        (SyncEnv.mk (MetaFetch.success true (some 1000)) none true
          ConflictChoice.cancelled 99)).state.todos = [Todo.mk 0 "a"] ∧
      (coordinateSync
        (AppState.mk (some "/t") true true (some 0) [Todo.mk 0 "a"] 1
          [("pending_upload_t", "true")] none SyncStatus.pending (some "/t"))
        (SyncEnv.mk (MetaFetch.success true (some 1000)) none true
          ConflictChoice.cancelled 99)).state.localLastModified = some 0 ∧
      (coordinateSync
        (AppState.mk (some "/t") true true (some 0) [Todo.mk 0 "a"] 1
          [("pending_upload_t", "true")] none SyncStatus.pending (some "/t"))
        (SyncEnv.mk (MetaFetch.success true (some 1000)) none true
          ConflictChoice.cancelled 99)).state.displayedStatus = SyncStatus.idle ∧
      isUploadPending
        (coordinateSync
          (AppState.mk (some "/t") true true (some 0) [Todo.mk 0 "a"] 1
            [("pending_upload_t", "true")] none SyncStatus.pending (some "/t"))
          (SyncEnv.mk (MetaFetch.success true (some 1000)) none true
            ConflictChoice.cancelled 99)).state.store "/t" = false) :=
  ⟨by decide, by decide,
    coordinateSync_within_tolerance "/t" (by decide) 0 1000 99 [Todo.mk 0 "a"] 1
      [("pending_upload_t", "true")] none SyncStatus.pending (some "/t") none true
      ConflictChoice.cancelled (by decide) _ rfl⟩

/-- Claim C4 (counterexample).  The claim states that after resolving a
conflict with `remote`, the locally stored content is byte-identical to
the downloaded content.  `saveTodosFromText` trims every line and drops
empty lines, so downloading `"a\n"` (with its trailing newline) stores the
single task `"a"`, whose file content is `"a"`, not `"a\n"`. -/
theorem keepDropbox_not_byte_identical_cex :
    (coordinateSync
        (AppState.mk (some "/t") true true (some 0) [Todo.mk 0 "old"] 1
          [("pending_upload_t", "true")] none SyncStatus.pending (some "/t"))
        (SyncEnv.mk (MetaFetch.success true (some 3000)) (some "a\n") true
          ConflictChoice.keepDropbox 99)).conflicts = [(0, 3000, "/t")]
    ∧ (coordinateSync
        (AppState.mk (some "/t") true true (some 0) [Todo.mk 0 "old"] 1
          [("pending_upload_t", "true")] none SyncStatus.pending (some "/t"))
        (SyncEnv.mk (MetaFetch.success true (some 3000)) (some "a\n") true
          ConflictChoice.keepDropbox 99)).state.todos.map Todo.text = ["a"]
    ∧ todoFileContent
        (coordinateSync
          (AppState.mk (some "/t") true true (some 0) [Todo.mk 0 "old"] 1
            [("pending_upload_t", "true")] none SyncStatus.pending (some "/t"))
          (SyncEnv.mk (MetaFetch.success true (some 3000)) (some "a\n") true
            ConflictChoice.keepDropbox 99)).state.todos = "a"
    ∧ ("a" : String) ≠ "a\n" := by
  refine ⟨by decide, by decide, by decide, by decide⟩

/-- Claim C4 (amended): after a conflict resolved with the `remote`
(`'dropbox'`) choice and a successful download, the locally stored task
list consists of the downloaded content's trimmed non-empty lines, in
order (so it is byte-identical to the downloaded content exactly when that
content is already newline-joined trimmed non-empty lines), and the
pending flag for the file is cleared. -/
theorem keepDropbox_normalized_overwrite (p : String) (hp : p ≠ "")
    (ld rd now2 : Int) (todos : List Todo) (nid : Nat) (store : List (String × String))
    (lst : Option Int) (ds : SyncStatus) (dp : Option String)
    (content : String) (upOk : Bool)
    (hgt : ld + 2000 < rd) (hpend : isUploadPending store p = true) (out : SyncOutcome)
    (hout : out = coordinateSync
      (AppState.mk (some p) true true (some ld) todos nid store lst ds dp)
      (SyncEnv.mk (MetaFetch.success true (some rd)) (some content) upOk
        ConflictChoice.keepDropbox now2)) :
    out.conflicts = [(ld, rd, p)] ∧ out.downloads = 1 ∧ out.uploads = [] ∧
    out.state.todos.map Todo.text = parseTodoLines content ∧
    out.state.displayedStatus = SyncStatus.idle ∧
    isUploadPending out.state.store p = false := by
  subst hout
  have h1 : ¬ ((ld - rd).natAbs ≤ 2000) := by omega
  have h2 : rd > ld := by omega
  unfold coordinateSync
  simp [getDropboxFileMetadata, hp, h1, h2, hpend, saveTodosFromText, saveTodosToStorage,
    setLastSyncTime, map_text_enum_mk, isUploadPending_clearUploadPending_self]

/-- Witness for `keepDropbox_normalized_overwrite` at a concrete pass. -/
theorem keepDropbox_normalized_overwrite_witness :
    ("/t" : String) ≠ "" ∧ ((0 : Int) + 2000 < 3000) ∧
    isUploadPending [("pending_upload_t", "true")] "/t" = true ∧
    ((coordinateSync
        (AppState.mk (some "/t") true true (some 0) [Todo.mk 0 "old"] 1
          [("pending_upload_t", "true")] none SyncStatus.pending (some "/t"))
        (SyncEnv.mk (MetaFetch.success true (some 3000)) (some " x \n\ny") true
          ConflictChoice.keepDropbox 99)).conflicts = [(0, 3000, "/t")] ∧
      (coordinateSync
        (AppState.mk (some "/t") true true (some 0) [Todo.mk 0 "old"] 1
          [("pending_upload_t", "true")] none SyncStatus.pending (some "/t"))
        (SyncEnv.mk (MetaFetch.success true (some 3000)) (some " x \n\ny") true
          ConflictChoice.keepDropbox 99)).downloads = 1 ∧
      (coordinateSync
        (AppState.mk (some "/t") true true (some 0) [Todo.mk 0 "old"] 1
          [("pending_upload_t", "true")] none SyncStatus.pending (some "/t"))
        (SyncEnv.mk (MetaFetch.success true (some 3000)) (some " x \n\ny") true
          ConflictChoice.keepDropbox 99)).uploads = [] ∧
      (coordinateSync
        (AppState.mk (some "/t") true true (some 0) [Todo.mk 0 "old"] 1
          [("pending_upload_t", "true")] none SyncStatus.pending (some "/t"))
        (SyncEnv.mk (MetaFetch.success true (some 3000)) (some " x \n\ny") true
          ConflictChoice.keepDropbox 99)).state.todos.map Todo.text =
        parseTodoLines " x \n\ny" ∧
      (coordinateSync
        (AppState.mk (some "/t") true true (some 0) [Todo.mk 0 "old"] 1
          [("pending_upload_t", "true")] none SyncStatus.pending (some "/t"))
        (SyncEnv.mk (MetaFetch.success true (some 3000)) (some " x \n\ny") true
          ConflictChoice.keepDropbox 99)).state.displayedStatus = SyncStatus.idle ∧
      isUploadPending
        (coordinateSync
          (AppState.mk (some "/t") true true (some 0) [Todo.mk 0 "old"] 1
            [("pending_upload_t", "true")] none SyncStatus.pending (some "/t"))
          (SyncEnv.mk (MetaFetch.success true (some 3000)) (some " x \n\ny") true
            ConflictChoice.keepDropbox 99)).state.store "/t" = false) :=
  ⟨by decide, by decide, by decide,
    keepDropbox_normalized_overwrite "/t" (by decide) 0 3000 99 [Todo.mk 0 "old"] 1
      [("pending_upload_t", "true")] none SyncStatus.pending (some "/t") " x \n\ny" true
      (by decide) (by decide) _ rfl⟩

/-- Claim C6 (counterexample).  The claim states that only `NotFound` is
treated as "remote absent" and that a pass whose metadata fetch fails with
an authentication (or other) error does not upload.  In
`getDropboxFileMetadata` every failure returns `null`, indistinguishable
from `NotFound`, and `coordinateSync` then takes the remote-absent branch:
with a local timestamp present it uploads the local content over the
remote file. -/
theorem metadata_error_causes_upload_cex :
    getDropboxFileMetadata true "/t" MetaFetch.authError =
      getDropboxFileMetadata true "/t" MetaFetch.notFound
    ∧ (coordinateSync
        (AppState.mk (some "/t") true true (some 0) [Todo.mk 0 "a"] 1 [] none
          SyncStatus.idle none)
        (SyncEnv.mk MetaFetch.authError none true ConflictChoice.cancelled 99)).uploads =
      ["a"] := by
  refine ⟨by decide, by decide⟩

/-- Claim C6 (amended): `getDropboxFileMetadata` collapses `NotFound`,
authentication and all other errors to the same `null` result, and a
coordinator pass whose metadata fetch fails with an authentication error
therefore takes the remote-absent branch: with a local timestamp present
it attempts exactly one upload of the local content. -/
theorem metadata_errors_collapse_to_none (b : Bool) (q : String) (p : String) (hp : p ≠ "")
    (ld now2 : Int) (todos : List Todo) (nid : Nat) (store : List (String × String))
    (lst : Option Int) (ds : SyncStatus) (dp : Option String)
    (dres : Option String) (upOk : Bool) (choice : ConflictChoice) :
    getDropboxFileMetadata b q MetaFetch.authError = none ∧
    getDropboxFileMetadata b q MetaFetch.otherError = none ∧
    getDropboxFileMetadata b q MetaFetch.notFound = none ∧
    (coordinateSync (AppState.mk (some p) true true (some ld) todos nid store lst ds dp)
      (SyncEnv.mk MetaFetch.authError dres upOk choice now2)).uploads =
      [todoFileContent todos] := by
  refine ⟨?_, ?_, ?_, ?_⟩
  · simp [getDropboxFileMetadata]
  · simp [getDropboxFileMetadata]
  · simp [getDropboxFileMetadata]
  · unfold coordinateSync
    cases upOk <;> simp [getDropboxFileMetadata, hp]

/-- Witness for `metadata_errors_collapse_to_none` at concrete inputs. -/
theorem metadata_errors_collapse_to_none_witness :
    ("/t" : String) ≠ "" ∧
    (getDropboxFileMetadata true "/q" MetaFetch.authError = none ∧
      getDropboxFileMetadata true "/q" MetaFetch.otherError = none ∧
      getDropboxFileMetadata true "/q" MetaFetch.notFound = none ∧
      (coordinateSync
        (AppState.mk (some "/t") true true (some 0) [Todo.mk 0 "a"] 1 [] none
          SyncStatus.idle none)
        (SyncEnv.mk MetaFetch.authError none true ConflictChoice.cancelled 99)).uploads =
        [todoFileContent [Todo.mk 0 "a"]]) :=
  ⟨by decide,
    metadata_errors_collapse_to_none true "/q" "/t" (by decide) 0 99 [Todo.mk 0 "a"] 1 []
      none SyncStatus.idle none none true ConflictChoice.cancelled⟩

/-- State of the debounce/pass machinery of `todo-sync-coordinator.js`:
whether the single `syncDebounceTimer` is armed, and how many
`coordinateSync` passes are currently in flight (started but not yet
through their `finally` block). -/
structure CoordState where
  timerArmed : Bool
  inFlight : Nat
deriving DecidableEq, Repr

/-- Events of the single-threaded event loop that touch the debounce
machinery.  `localChange` is `handleLocalDataChange` for the active file:
`clearTimeout` followed by `setTimeout` (the timer ends up armed).
`timerFires` is an armed timer expiring: its callback calls
`coordinateSync`, whose first statement `clearTimeout(syncDebounceTimer)`
leaves the timer disarmed, and the pass is then in flight (it suspends at
its first `await`, letting further events run).  `passEnds` is an
in-flight pass completing its `finally` block. -/
inductive CoordEvent where
  | localChange
  | timerFires
  | passEnds
deriving DecidableEq, Repr

/-- One step of the debounce machinery; `none` when the event cannot occur
in the given state (an unarmed timer cannot fire; no pass can end when
none is in flight).  There is no in-flight guard in the source: a timer
firing always starts a new pass, even when one is already in flight. -/
def coordStep : CoordState → CoordEvent → Option CoordState
  | s, CoordEvent.localChange => some { s with timerArmed := true }
  | s, CoordEvent.timerFires =>
    if s.timerArmed then some ⟨false, s.inFlight + 1⟩ else none
  | s, CoordEvent.passEnds =>
    if s.inFlight > 0 then some { s with inFlight := s.inFlight - 1 } else none

/-- Run a sequence of event-loop events from a starting state. -/
def coordRun (s : CoordState) : List CoordEvent → Option CoordState
  | [] => some s
  | e :: es =>
    match coordStep s e with
    | some s1 => coordRun s1 es
    | none => none

/-- Claim C5 (counterexample).  The claim states that at most one sync
pass per file is ever in flight.  Starting from the idle state, the
event sequence "edit, timer fires (pass A starts and suspends), edit
again (timer re-armed while A is suspended, e.g. at the conflict dialog),
timer fires again" is a valid event-loop execution and leaves two passes
in flight: the second firing starts a parallel pass instead of being
absorbed. -/
theorem debounce_two_passes_in_flight_cex :
    coordRun ⟨false, 0⟩
      [CoordEvent.localChange, CoordEvent.timerFires, CoordEvent.localChange,
        CoordEvent.timerFires] = some ⟨false, 2⟩
    ∧ ¬ ((2 : Nat) ≤ 1) := by
  refine ⟨by decide, by decide⟩

/-- Claim C5 (amended): the debounce coalesces only firings of the timer
itself — a firing disarms the timer, so a second firing requires an
intervening local change — but it does not serialize passes: each firing
unconditionally starts a new pass, incrementing the number in flight even
when a pass is already running. -/
theorem debounce_fire_disarms_and_starts_pass (s s1 : CoordState)
    (h : coordStep s CoordEvent.timerFires = some s1) :
    s1.timerArmed = false ∧ s1.inFlight = s.inFlight + 1 ∧
    coordStep s1 CoordEvent.timerFires = none := by
  simp only [coordStep] at h ⊢
  by_cases ha : s.timerArmed = true
  · rw [if_pos ha] at h
    injection h with h1
    subst h1
    exact ⟨rfl, rfl, rfl⟩
  · rw [if_neg ha] at h
    exact Option.noConfusion h

/-- Witness for `debounce_fire_disarms_and_starts_pass` at a concrete
state in which a pass is already in flight. -/
theorem debounce_fire_disarms_and_starts_pass_witness :
    coordStep ⟨true, 1⟩ CoordEvent.timerFires = some ⟨false, 2⟩ ∧
    ((⟨false, 2⟩ : CoordState).timerArmed = false ∧
      (⟨false, 2⟩ : CoordState).inFlight = (⟨true, 1⟩ : CoordState).inFlight + 1 ∧
      coordStep ⟨false, 2⟩ CoordEvent.timerFires = none) :=
  ⟨by decide, debounce_fire_disarms_and_starts_pass ⟨true, 1⟩ ⟨false, 2⟩ (by decide)⟩

/-- A parsed JSON value, the result of `JSON.parse` on the persisted
`todos` item.  (`jnull` is JavaScript `null`, for which
`typeof x === 'object'` holds.) -/
inductive JVal where
  | str (s : String)
  | num (n : Int)
  | jbool (b : Bool)
  | jnull
  | arr (elems : List JVal)
  | obj (fields : List (String × JVal))

/-- Model of the JavaScript test `typeof x === 'object'`: true exactly for
`null`, arrays and plain objects. -/
def jTypeofObject : JVal → Bool
  | JVal.jnull => true
  | JVal.arr _ => true
  | JVal.obj _ => true
  | _ => false

/-- Model of `Object.prototype.hasOwnProperty.call(x, k)`: throws on
`null` (the `Except.error` case, caught by the surrounding `try`), looks
up own fields of an object, and is `false` for arrays and primitive
wrappers (no own `id`/`text` properties). -/
def jHasProp : JVal → String → Except Unit Bool
  | JVal.jnull, _ => Except.error ()
  | JVal.obj fields, k => Except.ok (fields.any (fun f => f.1 = k))
  | _, _ => Except.ok false

/-- Model of `generateUniqueId()` (`Date.now` + `Math.random` in the
source): an injective supply of fresh id strings driven by a counter. -/
def generateUniqueId (n : Nat) : String := "uid" ++ toString n

/-- The `{id: ..., text: ...}` object built by the migration branch of
`getTodosFromStorage`. -/
def todoJObj (id : String) (text : JVal) : JVal :=
  JVal.obj [("id", JVal.str id), ("text", text)]

/-- Result of a `getTodosFromStorage()` call: the returned array, the
`todos` item left in storage (`none` = absent; `some (Except.error _)` =
unparseable text), and whether `saveTodosToStorage` was called. -/
structure StorageResult where
  todos : List JVal
  stored : Option (Except Unit JVal)
  wrote : Bool

/-- Model of `getTodosFromStorage()` from `assets/js/todo-storage.js` at
the JSON level.  The input is the persisted `todos` item (`none` if
absent, `some (Except.error _)` if `JSON.parse` throws, otherwise the
parsed value).  A non-empty array whose first element is a string is
migrated (every element becomes `{id, text}` with a fresh id); an empty
array, or an array whose first element is an object owning `id` and
`text`, is returned as parsed (later elements are not inspected);
everything else — including a `null` first element, whose
`hasOwnProperty` call throws into the catch block — resets storage to
`[]` and returns `[]`. -/
def getTodosFromStorage (stored : Option (Except Unit JVal)) (nextId : Nat) : StorageResult :=
  match stored with
  | none => ⟨[], none, false⟩
  | some (Except.error _) => ⟨[], some (Except.ok (JVal.arr [])), true⟩
  | some (Except.ok parsedData) =>
    match parsedData with
    | JVal.arr [] => ⟨[], some (Except.ok (JVal.arr [])), false⟩
    | JVal.arr (v0 :: rest) =>
      match v0 with
      | JVal.str s0 =>
        let todos := (JVal.str s0 :: rest).enum.map
          (fun pr => todoJObj (generateUniqueId (nextId + pr.1)) pr.2)
        ⟨todos, some (Except.ok (JVal.arr todos)), true⟩
      | _ =>
        if jTypeofObject v0 then
          match jHasProp v0 "id" with
          | Except.error _ => ⟨[], some (Except.ok (JVal.arr [])), true⟩
          | Except.ok hasId =>
            if hasId then
              match jHasProp v0 "text" with
              | Except.error _ => ⟨[], some (Except.ok (JVal.arr [])), true⟩
              | Except.ok hasText =>
                if hasText then ⟨v0 :: rest, stored, false⟩
                else ⟨[], some (Except.ok (JVal.arr [])), true⟩
            else ⟨[], some (Except.ok (JVal.arr [])), true⟩
        else ⟨[], some (Except.ok (JVal.arr [])), true⟩
    | _ => ⟨[], some (Except.ok (JVal.arr [])), true⟩

/-- Claim C9 (counterexample).  The claim states that every returned
element has an `id` and a `text` field, but the format check inspects only
`parsedData[0]`: an array whose first element is well-formed is returned
as-is, and here its second element `{}` owns neither field. -/
theorem getTodosFromStorage_second_element_unchecked_cex :
    (getTodosFromStorage
        (some (Except.ok (JVal.arr [todoJObj "1" (JVal.str "a"), JVal.obj []]))) 0).todos
      = [todoJObj "1" (JVal.str "a"), JVal.obj []]
    ∧ jHasProp (JVal.obj []) "id" = Except.ok false
    ∧ jHasProp (JVal.obj []) "text" = Except.ok false :=
  ⟨rfl, rfl, rfl⟩

/-- Claim C9 (amended): `getTodosFromStorage` is total (the one internal
throw site, `hasOwnProperty` on a `null` element, is caught) and always
returns an array.  A missing item yields `[]` without writing; corrupt
JSON resets the stored list to `[]` and returns `[]`; a non-empty array
with a string first element is migrated, every migrated element being an
`{id, text}` object with a fresh id; an array whose first element is an
object owning `id` and `text` is returned unchanged without validating the
remaining elements; a `null` first element or a non-array value resets to
`[]`. -/
theorem getTodosFromStorage_total_spec (n : Nat) :
    ((getTodosFromStorage none n).todos = [] ∧ (getTodosFromStorage none n).wrote = false)
    ∧ (∀ e : Unit, (getTodosFromStorage (some (Except.error e)) n).todos = []
        ∧ (getTodosFromStorage (some (Except.error e)) n).stored =
            some (Except.ok (JVal.arr []))
        ∧ (getTodosFromStorage (some (Except.error e)) n).wrote = true)
    ∧ (∀ s0 rest,
        (getTodosFromStorage (some (Except.ok (JVal.arr (JVal.str s0 :: rest)))) n).todos =
          (JVal.str s0 :: rest).enum.map
            (fun pr => todoJObj (generateUniqueId (n + pr.1)) pr.2)
        ∧ ∀ t ∈ (getTodosFromStorage
            (some (Except.ok (JVal.arr (JVal.str s0 :: rest)))) n).todos,
            jHasProp t "id" = Except.ok true ∧ jHasProp t "text" = Except.ok true)
    ∧ (∀ v0 rest, jTypeofObject v0 = true → jHasProp v0 "id" = Except.ok true →
        jHasProp v0 "text" = Except.ok true →
        (getTodosFromStorage (some (Except.ok (JVal.arr (v0 :: rest)))) n).todos = v0 :: rest
        ∧ (getTodosFromStorage (some (Except.ok (JVal.arr (v0 :: rest)))) n).wrote = false)
    ∧ (∀ rest,
        (getTodosFromStorage (some (Except.ok (JVal.arr (JVal.jnull :: rest)))) n).todos = []
        ∧ (getTodosFromStorage (some (Except.ok (JVal.arr (JVal.jnull :: rest)))) n).wrote
            = true)
    ∧ (∀ i : Int, (getTodosFromStorage (some (Except.ok (JVal.num i))) n).todos = []
        ∧ (getTodosFromStorage (some (Except.ok (JVal.num i))) n).wrote = true) := by
  refine ⟨⟨rfl, rfl⟩, fun e => ⟨rfl, rfl, rfl⟩, ?_, ?_, fun rest => ⟨rfl, rfl⟩,
    fun i => ⟨rfl, rfl⟩⟩
  · intro s0 rest
    refine ⟨rfl, ?_⟩
    intro t ht
    rcases List.mem_map.mp ht with ⟨pr, hpr, rfl⟩
    exact ⟨rfl, rfl⟩
  · intro v0 rest h1 h2 h3
    cases v0 with
    | str s => simp [jTypeofObject] at h1
    | num i => simp [jTypeofObject] at h1
    | jbool b => simp [jTypeofObject] at h1
    | jnull => exact Except.noConfusion h2
    | arr elems =>
      simp only [jHasProp] at h2
      exact absurd (Except.ok.inj h2) (by decide)
    | obj fields =>
      simp only [jHasProp] at h2 h3
      have h2a := Except.ok.inj h2
      have h3a := Except.ok.inj h3
      constructor
      · simp [getTodosFromStorage, jTypeofObject, jHasProp, h2a, h3a]
      · simp [getTodosFromStorage, jTypeofObject, jHasProp, h2a, h3a]

/-- Witness for `getTodosFromStorage_total_spec`: the validated-first-
element clause applied at a concrete one-element array. -/
theorem getTodosFromStorage_total_spec_witness :
    jTypeofObject (todoJObj "1" (JVal.str "a")) = true
    ∧ jHasProp (todoJObj "1" (JVal.str "a")) "id" = Except.ok true
    ∧ jHasProp (todoJObj "1" (JVal.str "a")) "text" = Except.ok true
    ∧ ((getTodosFromStorage
          (some (Except.ok (JVal.arr [todoJObj "1" (JVal.str "a")]))) 0).todos
        = [todoJObj "1" (JVal.str "a")]
      ∧ (getTodosFromStorage
          (some (Except.ok (JVal.arr [todoJObj "1" (JVal.str "a")]))) 0).wrote = false) :=
  ⟨rfl, rfl, rfl,
    (getTodosFromStorage_total_spec 0).2.2.2.1 (todoJObj "1" (JVal.str "a")) [] rfl rfl rfl⟩

/-- A stored task as `loadTodos` (`assets/js/todo-load.js`) sees it after
parsing: the `{id, text}` object plus the two attributes of the parsed
`jsTodoTxt.Item` that the sort comparator consults — `item.complete()` and
`item.priority()` (`none` when the task has no priority; the parsing
itself is the external `jsTodoTxt` library). -/
structure ParsedItem where
  id : Nat
  text : String
  complete : Bool
  priority : Option String
deriving DecidableEq, Repr

/-- The comparator's `item.priority() || 'Z'` default. -/
def jsPriority (i : ParsedItem) : String := i.priority.getD "Z"

/-- The sort comparator of `loadTodos` (`todo-load.js`): completed items
last, then ascending priority with `'Z'` for no priority, `0` (keep
relative order) otherwise. -/
def todoSortCompare (a b : ParsedItem) : Int :=
  if a.complete ∧ ¬ b.complete then 1
  else if ¬ a.complete ∧ b.complete then -1
  else
    if jsPriority a < jsPriority b then -1
    else if jsPriority a > jsPriority b then 1
    else 0

/-- The total preorder induced by the comparator: `a` may come before `b`. -/
def todoSortLe (a b : ParsedItem) : Prop := todoSortCompare a b ≤ 0

instance : DecidableRel todoSortLe := fun a b =>
  inferInstanceAs (Decidable (todoSortCompare a b ≤ 0))

/-- Model of the display ordering of `loadTodos`:
`itemsForSorting.sort(comparator)`.  `Array.prototype.sort` is stable, and
a stable sort by a total preorder has a unique result, here realized by
insertion sort with the comparator's preorder. -/
def loadTodos (l : List ParsedItem) : List ParsedItem :=
  List.insertionSort todoSortLe l

/-- The ordering key the claim describes: incomplete before complete, and
within the same completion state ascending priority with a missing
priority read as `'Z'`. -/
def sortKeyLe (a b : ParsedItem) : Prop :=
  (a.complete = false ∧ b.complete = true) ∨
  (a.complete = b.complete ∧ jsPriority a ≤ jsPriority b)

theorem strCompare_le_iff (x y : String) :
    ((if x < y then (-1 : Int) else if x > y then 1 else 0) ≤ 0) ↔ x ≤ y := by
  by_cases h1 : x < y
  · simp [h1, le_of_lt h1]
  · by_cases h2 : x > y
    · simp [h1, h2, not_le.mpr h2]
    · have hxy : x = y := le_antisymm (not_lt.mp h2) (not_lt.mp h1)
      simp [h1, h2, hxy]

theorem todoSortLe_iff (a b : ParsedItem) : todoSortLe a b ↔ sortKeyLe a b := by
  unfold todoSortLe todoSortCompare
  cases ha : a.complete <;> cases hb : b.complete
  · rw [if_neg (by simp [ha]), if_neg (by simp [hb]), strCompare_le_iff]
    unfold sortKeyLe
    constructor
    · intro h
      exact Or.inr ⟨by rw [ha, hb], h⟩
    · rintro (⟨h1, h2⟩ | ⟨h1, h2⟩)
      · rw [hb] at h2
        exact absurd h2 (by decide)
      · exact h2
  · rw [if_neg (by simp [ha]), if_pos (by simp [ha, hb])]
    unfold sortKeyLe
    constructor
    · intro h
      exact Or.inl ⟨ha, hb⟩
    · intro h
      decide
  · rw [if_pos (by simp [ha, hb])]
    unfold sortKeyLe
    constructor
    · intro h
      exact absurd h (by decide)
    · rintro (⟨h1, h2⟩ | ⟨h1, h2⟩)
      · rw [ha] at h1
        exact absurd h1 (by decide)
      · rw [ha, hb] at h1
        exact absurd h1 (by decide)
  · rw [if_neg (by simp [hb]), if_neg (by simp [ha]), strCompare_le_iff]
    unfold sortKeyLe
    constructor
    · intro h
      exact Or.inr ⟨by rw [ha, hb], h⟩
    · rintro (⟨h1, h2⟩ | ⟨h1, h2⟩)
      · rw [ha] at h1
        exact absurd h1 (by decide)
      · exact h2

instance : IsTotal ParsedItem todoSortLe := by
  constructor
  intro a b
  rw [todoSortLe_iff, todoSortLe_iff]
  unfold sortKeyLe
  by_cases hc : a.complete = b.complete
  · rcases le_total (jsPriority a) (jsPriority b) with h | h
    · exact Or.inl (Or.inr ⟨hc, h⟩)
    · exact Or.inr (Or.inr ⟨hc.symm, h⟩)
  · cases ha : a.complete <;> cases hb : b.complete <;> simp_all

instance : IsTrans ParsedItem todoSortLe := by
  constructor
  intro a b c hab hbc
  rw [todoSortLe_iff] at hab hbc ⊢
  unfold sortKeyLe at hab hbc ⊢
  rcases hab with ⟨ha1, hb1⟩ | ⟨hab1, hab2⟩ <;> rcases hbc with ⟨hb2, hc1⟩ | ⟨hbc1, hbc2⟩
  · rw [hb1] at hb2
    exact absurd hb2 (by decide)
  · exact Or.inl ⟨ha1, hbc1 ▸ hb1⟩
  · exact Or.inl ⟨hab1 ▸ hb2, hc1⟩
  · exact Or.inr ⟨hab1.trans hbc1, le_trans hab2 hbc2⟩

theorem filter_orderedInsert_not (pb : ParsedItem → Bool) (a : ParsedItem)
    (l : List ParsedItem) (hpa : pb a = false) :
    (List.orderedInsert todoSortLe a l).filter pb = l.filter pb := by
  induction l with
  | nil => simp [List.orderedInsert, hpa]
  | cons b t ih =>
    by_cases h : todoSortLe a b
    · simp [List.orderedInsert, h, hpa]
    · simp only [List.orderedInsert, if_neg h]
      rw [List.filter_cons, List.filter_cons]
      cases hb : pb b <;> simp [hb, ih]

theorem filter_orderedInsert_same (pb : ParsedItem → Bool) (a : ParsedItem)
    (l : List ParsedItem) (hpa : pb a = true)
    (hcompat : ∀ b, pb b = true → todoSortLe a b) :
    (List.orderedInsert todoSortLe a l).filter pb = a :: l.filter pb := by
  induction l with
  | nil => simp [List.orderedInsert, hpa]
  | cons b t ih =>
    by_cases h : todoSortLe a b
    · simp [List.orderedInsert, h, hpa]
    · have hb : pb b = false := by
        cases hpb : pb b
        · rfl
        · exact absurd (hcompat b hpb) h
      simp only [List.orderedInsert, if_neg h]
      rw [List.filter_cons]
      simp [hb, ih]

theorem filter_insertionSort (pb : ParsedItem → Bool)
    (hequiv : ∀ a b, pb a = true → pb b = true → todoSortLe a b) (l : List ParsedItem) :
    (List.insertionSort todoSortLe l).filter pb = l.filter pb := by
  induction l with
  | nil => rfl
  | cons x t ih =>
    cases hx : pb x
    · rw [List.insertionSort, filter_orderedInsert_not pb x _ hx, ih, List.filter_cons]
      simp [hx]
    · rw [List.insertionSort,
        filter_orderedInsert_same pb x _ hx (fun b hb => hequiv x b hx hb), ih,
        List.filter_cons]
      simp [hx]

/-- Claim C10 (confirmed): the list displayed by `loadTodos` is a
permutation of the stored tasks in which every earlier item relates to
every later one by `sortKeyLe` — so each incomplete task precedes each
completed one, and tasks of equal completion state appear in ascending
priority with a missing priority read as `'Z'` — and, for every
completion/priority class, the tasks of that class appear in exactly their
stored relative order (stability). -/
theorem loadTodos_display_order (l : List ParsedItem) :
    (loadTodos l).Perm l
    ∧ (loadTodos l).Pairwise sortKeyLe
    ∧ ∀ c : Bool, ∀ pr : String,
        (loadTodos l).filter (fun x => x.complete == c && (jsPriority x == pr)) =
          l.filter (fun x => x.complete == c && (jsPriority x == pr)) := by
  refine ⟨List.perm_insertionSort _ l, ?_, ?_⟩
  · have hs := List.sorted_insertionSort todoSortLe l
    exact hs.imp (fun hab => (todoSortLe_iff _ _).mp hab)
  · intro c pr
    apply filter_insertionSort
    intro a b ha hb
    rw [todoSortLe_iff]
    unfold sortKeyLe
    simp only [Bool.and_eq_true, beq_iff_eq] at ha hb
    right
    exact ⟨ha.1.trans hb.1.symm, by rw [ha.2, hb.2]⟩
